import Mathlib

/-!
Verification development for the cache/sync consistency subsystem of
`src/app/app.py` (SharePoint-backed document chatbot).

The Python functions are shallowly embedded as Lean definitions:

* Python `dict`s (the manifest `map` and the per-cache config) are modelled as
  association lists with unique keys, with `pyLookup`/`pyInsert` giving the
  `d.get(k)` / `d[k] = v` semantics (overwrite preserves position, fresh keys
  append) and `dictEq` giving Python `==` on dicts (same keys bound to the same
  values, insertion order ignored).
* Remote Graph calls, the text-extraction routine and the vector-store
  builder/persister are collaborator boundaries; they are modelled by a
  `Remote` oracle record whose fallible operations return `Except Unit`.
* The sync orchestrator `maybe_autosync_current_cache` is embedded as a pure
  function from the oracle and the application state to the next state plus a
  trace of performed effects (`Event`) and an outcome (`SyncResult`), with
  state mutations placed exactly where the Python code performs them.
-/

/-- Lookup in an association-list model of a Python `dict`: the value bound to
`k`, or `none` when `k` is absent.  Real Python dicts never bind a key twice,
so taking the first match is exact under the `nodupKeys` invariant. -/
def pyLookup {K V : Type} [DecidableEq K] (k : K) : List (K × V) → Option V
  | [] => none
  | p :: rest => if p.1 = k then some p.2 else pyLookup k rest

/-- `d[k] = v` on a Python `dict`: overwrite in place when the key is present
(insertion position preserved), append otherwise. -/
def pyInsert {K V : Type} [DecidableEq K] (m : List (K × V)) (k : K) (v : V) :
    List (K × V) :=
  if k ∈ m.map Prod.fst then m.map (fun p => if p.1 = k then (k, v) else p)
  else m ++ [(k, v)]

/-- The invariant every Python `dict` satisfies: no key is bound twice. -/
def nodupKeys {K V : Type} (m : List (K × V)) : Prop := (m.map Prod.fst).Nodup

instance {K V : Type} [DecidableEq K] (m : List (K × V)) : Decidable (nodupKeys m) :=
  inferInstanceAs (Decidable ((m.map Prod.fst).Nodup))

/-- Python `dict` equality (`==`): same keys bound to the same values,
insertion order ignored. -/
def dictEq {K V : Type} [DecidableEq K] [DecidableEq V] (m1 m2 : List (K × V)) : Bool :=
  m1.all (fun p => decide (pyLookup p.1 m2 = some p.2)) &&
  m2.all (fun p => decide (pyLookup p.1 m1 = some p.2))

/-- One remote file as projected by the recursive walk
(`collect_files_recursively_from_item` in `src/app/app.py`).  Fields are read
with `dict.get`, hence optional; the walk always assigns `etag` a string, but
`build_manifest` reads it back with `.get`, so it stays optional at that
interface. -/
structure FileDesc where
  id : Option String
  name : Option String
  etag : Option String
  size : Option Int
  lastModifiedDateTime : Option String
  downloadUrl : Option String
  deriving DecidableEq, Repr

/-- The reduced per-file record stored in a manifest's `files` list
(`downloadUrl` deliberately dropped). -/
structure ReducedFile where
  id : Option String
  name : Option String
  etag : Option String
  size : Option Int
  lastModifiedDateTime : Option String
  deriving DecidableEq, Repr

/-- The manifest produced by `build_manifest`: readable `files` list, the
id-to-etag `map` used for delta detection, and `count`. -/
structure Manifest where
  files : List ReducedFile
  map : List (Option String × Option String)
  count : Nat
  deriving DecidableEq, Repr

/-- `build_manifest` (src/app/app.py lines 166-180): project each file to the
reduced fields, build the id-to-etag dict by successive assignment (so a later
duplicate id overwrites an earlier one), and set `count` to the length of the
input list. -/
def build_manifest (files : List FileDesc) : Manifest :=
  { files := files.map (fun f =>
      { id := f.id, name := f.name, etag := f.etag, size := f.size,
        lastModifiedDateTime := f.lastModifiedDateTime }),
    map := files.foldl (fun m f => pyInsert m f.id f.etag) [],
    count := files.length }

/-- `manifests_equal` (src/app/app.py lines 183-184): Python `==` on the `map`
dicts and on the `count` fields. -/
def manifests_equal (a b : Manifest) : Bool :=
  dictEq a.map b.map && (a.count == b.count)

/-- A Microsoft Graph drive item as seen by the walk: the Python code
dispatches on the presence of a `file` or `folder` facet (anything else is
ignored).  For a file item we keep the keys the walk reads; for a folder we
keep the children the child-listing call returns. -/
inductive DriveItem where
  | file (id name eTag downloadUrl : Option String) (size : Option Int)
      (lastModified : Option String)
  | folder (children : List DriveItem)
  | other

mutual

/-- `collect_files_recursively_from_item` (src/app/app.py lines 137-163),
restricted to its pure projection: a file item yields one descriptor whose
`etag` is `item.get("eTag") or item.get("@microsoft.graph.downloadUrl", "")[:32]`
(Python `or`: an absent or empty `eTag` falls back to the first 32 characters
of the download token, the empty string when that is absent too); a folder
yields the concatenation of its children's results in traversal order.  The
child-listing HTTP calls of the real walk can fail; that fallibility is
modelled at the orchestrator boundary by `Remote.listing`. -/
def collect_files_recursively_from_item : DriveItem → List FileDesc
  | DriveItem.file i n e d sz lm =>
      [{ id := i, name := n,
         etag := some (match e with
           | some s => if s = "" then (d.getD "").take 32 else s
           | none => (d.getD "").take 32),
         size := sz, lastModifiedDateTime := lm, downloadUrl := d }]
  | DriveItem.folder cs => collect_children cs
  | DriveItem.other => []

/-- Walk a list of child items in order, concatenating their collected files. -/
def collect_children : List DriveItem → List FileDesc
  | [] => []
  | c :: cs => collect_files_recursively_from_item c ++ collect_children cs

end

/-- Oracle record for every collaborator boundary the sync path touches.
Fallible operations return `Except Unit`; an `Except.error ()` models a raised
Python exception (HTTP error, extraction failure, build or persistence
failure).  `get_raw_text` is the external text-extraction routine; `httpGet`
returns an opaque handle to downloaded bytes; `buildEngine` returns an opaque
handle to a freshly built QA engine. -/
structure Remote where
  token : Except Unit Unit
  itemMeta : String → Except Unit DriveItem
  listing : DriveItem → Except Unit (List FileDesc)
  httpGet : String → Except Unit Nat
  get_raw_text : Nat → String → String
  buildEngine : String → Except Unit Nat
  persistResult : Except Unit Unit
  writeCfg : Except Unit Unit

/-- `download_and_extract_text` (src/app/app.py lines 187-196): files whose
`downloadUrl` is absent or empty (Python falsy) are skipped; otherwise the
bytes are fetched (a transport failure propagates, aborting the whole
operation) and the extracted text is appended followed by a blank line. -/
def download_and_extract_text (R : Remote) : List FileDesc → Except Unit String
  | [] => Except.ok ""
  | f :: rest =>
    match f.downloadUrl with
    | none => download_and_extract_text R rest
    | some url =>
      if url = "" then download_and_extract_text R rest
      else
        match R.httpGet url with
        | Except.error e => Except.error e
        | Except.ok bytes =>
          match download_and_extract_text R rest with
          | Except.error e => Except.error e
          | Except.ok restText =>
            Except.ok (R.get_raw_text bytes (f.name.getD "file") ++ "\n\n" ++ restText)

/-- The persisted per-cache config record, projected to the keys the sync path
reads: `type`, `autosync` (default `False`), the sharing link stored under
`sharepoint.link`, and the last synchronized manifest.  `manifest := none`
models both an absent key and the `{}` placeholder, neither of which can
compare equal to a freshly built manifest. -/
structure Config where
  type : Option String
  autosync : Bool
  spLink : Option String
  manifest : Option Manifest
  deriving DecidableEq, Repr

/-- The empty dict `read_cache_config` returns when the config file is missing
or unreadable. -/
def Config.empty : Config :=
  { type := none, autosync := false, spLink := none, manifest := none }

/-- The Streamlit session slots the sync path touches: the in-memory QA engine
handle and the active cache name. -/
structure SessionState where
  qa : Option Nat
  currentCache : Option String

/-- Whole application state: session plus the on-disk store of per-cache
configs. -/
structure AppState where
  session : SessionState
  store : String → Option Config

/-- `read_cache_config` (src/app/app.py lines 75-80): the stored config, or the
empty dict on any failure. -/
def read_cache_config (s : AppState) (name : String) : Config :=
  (s.store name).getD Config.empty

/-- Effects performed by a sync attempt, in program order. -/
inductive Event where
  | auth
  | resolveMeta
  | listing
  | download
  | rebuild
  | persistIndex
  | writeConfig
  deriving DecidableEq, Repr

/-- Outcome of `maybe_autosync_current_cache`: the preconditions failed and no
remote call was made; the manifests compared equal; the sync completed; or an
exception was raised at the given step (and caught by the orchestrator). -/
inductive SyncResult where
  | notAttempted
  | unchanged
  | completed
  | failed (step : Event)
  deriving DecidableEq, Repr

/-- `rebuild_vectorstore_and_save` (src/app/app.py lines 216-225): build the QA
engine and vector store from the text, persist the vector store, and only then
update the in-memory session slots.  A failure while building or persisting
leaves the session untouched. -/
def rebuild_vectorstore_and_save (R : Remote) (s : AppState) (cache : String)
    (text : String) : List Event × Except Event AppState :=
  match R.buildEngine text with
  | Except.error _ => ([Event.rebuild], Except.error Event.rebuild)
  | Except.ok qa =>
    match R.persistResult with
    | Except.error _ =>
        ([Event.rebuild, Event.persistIndex], Except.error Event.persistIndex)
    | Except.ok _ =>
        ([Event.rebuild, Event.persistIndex],
         Except.ok { s with session := { qa := some qa, currentCache := some cache } })

/-- The comparison performed at src/app/app.py line 247:
`manifests_equal(new_manifest, cfg.get("manifest", {}))`.  A stored manifest
that is absent (or the `{}` placeholder) never equals a built manifest, since
`{}.get("map")` is `None` while the built manifest's map is a dict. -/
def manifest_unchanged (cfg : Config) (newManifest : Manifest) : Bool :=
  match cfg.manifest with
  | some old => manifests_equal newManifest old
  | none => false

/-- The guard conditions of `maybe_autosync_current_cache` (src/app/app.py
lines 228-239): an active cache whose config has `type == "sharepoint"`, a
truthy `autosync`, and a truthy sharing link. -/
def autosync_preconditions (s : AppState) : Bool :=
  match s.session.currentCache with
  | none => false
  | some cache =>
    let cfg := read_cache_config s cache
    cfg.type == some "sharepoint" && cfg.autosync &&
      (match cfg.spLink with
       | some l => !(l == "")
       | none => false)

/-- `maybe_autosync_current_cache` (src/app/app.py lines 228-256): check the
guards; then, inside a try-block that catches every exception, authenticate,
resolve the sharing link, list the remote files, build the fresh manifest and
compare it with the stored one; on a difference download and extract the text,
rebuild and persist the vector store, and finally write the config updated
with the new manifest.  The returned trace records each performed effect in
program order and the `SyncResult` reports how the attempt ended. -/
def maybe_autosync_current_cache (R : Remote) (s : AppState) :
    AppState × List Event × SyncResult :=
  match s.session.currentCache with
  | none => (s, [], SyncResult.notAttempted)
  | some cache =>
    let cfg := read_cache_config s cache
    if cfg.type ≠ some "sharepoint" then (s, [], SyncResult.notAttempted)
    else if cfg.autosync = false then (s, [], SyncResult.notAttempted)
    else
      match cfg.spLink with
      | none => (s, [], SyncResult.notAttempted)
      | some link =>
        if link = "" then (s, [], SyncResult.notAttempted)
        else
          match R.token with
          | Except.error _ => (s, [Event.auth], SyncResult.failed Event.auth)
          | Except.ok _ =>
            match R.itemMeta link with
            | Except.error _ =>
                (s, [Event.auth, Event.resolveMeta], SyncResult.failed Event.resolveMeta)
            | Except.ok item =>
              match R.listing item with
              | Except.error _ =>
                  (s, [Event.auth, Event.resolveMeta, Event.listing],
                   SyncResult.failed Event.listing)
              | Except.ok files =>
                let newManifest := build_manifest files
                if manifest_unchanged cfg newManifest then
                  (s, [Event.auth, Event.resolveMeta, Event.listing],
                   SyncResult.unchanged)
                else
                  match download_and_extract_text R files with
                  | Except.error _ =>
                      (s, [Event.auth, Event.resolveMeta, Event.listing, Event.download],
                       SyncResult.failed Event.download)
                  | Except.ok text =>
                    match rebuild_vectorstore_and_save R s cache text with
                    | (evs, Except.error step) =>
                        (s, [Event.auth, Event.resolveMeta, Event.listing,
                             Event.download] ++ evs, SyncResult.failed step)
                    | (evs, Except.ok s1) =>
                      let cfg2 := { cfg with manifest := some newManifest }
                      match R.writeCfg with
                      | Except.error _ =>
                          (s1, [Event.auth, Event.resolveMeta, Event.listing,
                                Event.download] ++ evs ++ [Event.writeConfig],
                           SyncResult.failed Event.writeConfig)
                      | Except.ok _ =>
                          ({ s1 with store := fun n =>
                              if n = cache then some cfg2 else s1.store n },
                           [Event.auth, Event.resolveMeta, Event.listing,
                            Event.download] ++ evs ++ [Event.writeConfig],
                           SyncResult.completed)

/-- The `if not url: continue` guard of `download_and_extract_text`: a file
participates in the download only when its `downloadUrl` is a non-empty
string. -/
def has_download_url (f : FileDesc) : Bool :=
  match f.downloadUrl with
  | some u => !(u == "")
  | none => false

/-- Concatenation of a list of text fragments, used to state what
`download_and_extract_text` accumulates. -/
def concat_texts : List String → String
  | [] => ""
  | s :: rest => s ++ concat_texts rest

/-! ### Concrete sample inputs used by the witnesses -/

/-- Remote file `A` at content version `v1`. -/
def sampleFileA1 : FileDesc :=
  { id := some "A", name := some "a.docx", etag := some "v1", size := some 10,
    lastModifiedDateTime := some "2024-01-01T00:00:00Z", downloadUrl := none }

/-- Remote file `A` after its content changed to version `v2`. -/
def sampleFileA2 : FileDesc :=
  { id := some "A", name := some "a.docx", etag := some "v2", size := some 11,
    lastModifiedDateTime := some "2024-02-01T00:00:00Z", downloadUrl := none }

/-- Remote file `B` at content version `v1`. -/
def sampleFileB : FileDesc :=
  { id := some "B", name := some "b.pdf", etag := some "v1", size := some 20,
    lastModifiedDateTime := some "2024-01-01T00:00:00Z", downloadUrl := none }

/-- Remote file `B` with a different name and size but the same id and etag. -/
def sampleFileBRenamed : FileDesc :=
  { id := some "B", name := some "b-final.pdf", etag := some "v1", size := some 21,
    lastModifiedDateTime := some "2024-03-01T00:00:00Z", downloadUrl := none }

/-- A file carrying a resolvable download reference. -/
def sampleFileUrl : FileDesc :=
  { id := some "C", name := some "c.pdf", etag := some "v1", size := some 30,
    lastModifiedDateTime := some "2024-01-01T00:00:00Z", downloadUrl := some "tok" }

/-- A stored SharePoint config whose last synchronized manifest lists files
`A@v1` and `B@v1`. -/
def sampleConfig : Config :=
  { type := some "sharepoint", autosync := true, spLink := some "https-share-link",
    manifest := some (build_manifest [sampleFileA1, sampleFileB]) }

/-- An application state with the cache `policies` active and configured as
`sampleConfig`. -/
def sampleState : AppState :=
  { session := { qa := some 1, currentCache := some "policies" },
    store := fun n => if n = "policies" then some sampleConfig else none }

/-- A remote oracle on which every operation succeeds and whose listing now
reports `A@v2` (a change against `sampleConfig`). -/
def sampleRemoteOk : Remote :=
  { token := Except.ok (), itemMeta := fun _ => Except.ok DriveItem.other,
    listing := fun _ => Except.ok [sampleFileA2, sampleFileB],
    httpGet := fun _ => Except.ok 0, get_raw_text := fun _ _ => "T",
    buildEngine := fun _ => Except.ok 7, persistResult := Except.ok (),
    writeCfg := Except.ok () }

/-- Like `sampleRemoteOk` but the listing still reports `A@v1`, `B@v1`
(unchanged against `sampleConfig`). -/
def sampleRemoteUnchanged : Remote :=
  { sampleRemoteOk with listing := fun _ => Except.ok [sampleFileA1, sampleFileB] }

/-- Like `sampleRemoteOk` but authentication fails. -/
def sampleRemoteAuthFail : Remote :=
  { sampleRemoteOk with token := Except.error () }

/-- Like `sampleRemoteOk` but every download fails. -/
def sampleRemoteHttpFail : Remote :=
  { sampleRemoteOk with httpGet := fun _ => Except.error () }

/-- `sampleState` with autosync switched off on the stored config. -/
def sampleStateNoSync : AppState :=
  { session := { qa := some 1, currentCache := some "policies" },
    store := fun n =>
      if n = "policies" then some { sampleConfig with autosync := false } else none }

/-! ### Properties of the Python-dict model -/

theorem pyLookup_eq_none_iff {K V : Type} [DecidableEq K] (k : K) (m : List (K × V)) :
    pyLookup k m = none ↔ k ∉ m.map Prod.fst := by
  induction m with
  | nil => simp [pyLookup]
  | cons p rest ih =>
    by_cases h : p.1 = k
    · simp [pyLookup, h]
    · simp [pyLookup, h, ih, Ne.symm h]

theorem mem_of_pyLookup_eq_some {K V : Type} [DecidableEq K] {k : K} {v : V}
    {m : List (K × V)} (h : pyLookup k m = some v) : (k, v) ∈ m := by
  induction m with
  | nil => simp [pyLookup] at h
  | cons p rest ih =>
    by_cases hp : p.1 = k
    · simp [pyLookup, hp] at h
      subst h
      simp [← hp]
    · simp [pyLookup, hp] at h
      exact List.mem_cons_of_mem p (ih h)

theorem pyLookup_eq_some_of_mem {K V : Type} [DecidableEq K] {k : K} {v : V}
    {m : List (K × V)} (hnd : nodupKeys m) (h : (k, v) ∈ m) :
    pyLookup k m = some v := by
  induction m with
  | nil => simp at h
  | cons p rest ih =>
    rcases List.mem_cons.mp h with heq | hmem
    · subst heq
      simp [pyLookup]
    · by_cases hp : p.1 = k
      · exfalso
        have hk : k ∈ rest.map Prod.fst := List.mem_map_of_mem Prod.fst hmem
        have := (List.nodup_cons.mp hnd).1
        rw [hp] at this
        exact this hk
      · have hnd' : nodupKeys rest := (List.nodup_cons.mp hnd).2
        simp [pyLookup, hp]
        exact ih hnd' hmem

theorem pyLookup_append {K V : Type} [DecidableEq K] (k : K) (m m' : List (K × V)) :
    pyLookup k (m ++ m') = (pyLookup k m).or (pyLookup k m') := by
  induction m with
  | nil => simp [pyLookup]
  | cons p rest ih =>
    by_cases h : p.1 = k
    · simp [pyLookup, h]
    · simp [pyLookup, h, ih]

theorem pyLookup_map_update_ne {K V : Type} [DecidableEq K] {k k' : K} (v : V)
    (m : List (K × V)) (h : k' ≠ k) :
    pyLookup k' (m.map (fun p => if p.1 = k then (k, v) else p)) = pyLookup k' m := by
  induction m with
  | nil => simp [pyLookup]
  | cons p rest ih =>
    by_cases hp : p.1 = k
    · have hk : k ≠ k' := Ne.symm h
      have hp' : p.1 ≠ k' := by rw [hp]; exact hk
      simp [pyLookup, hp, hk, hp', ih]
    · simp [pyLookup, hp, ih]

theorem pyLookup_pyInsert_self {K V : Type} [DecidableEq K] (m : List (K × V))
    (k : K) (v : V) : pyLookup k (pyInsert m k v) = some v := by
  unfold pyInsert
  by_cases hmem : k ∈ m.map Prod.fst
  · simp only [hmem, if_true]
    induction m with
    | nil => simp at hmem
    | cons p rest ih =>
      by_cases hp : p.1 = k
      · simp [pyLookup, hp]
      · have hk : k ∈ rest.map Prod.fst := by
          rcases List.mem_map.mp hmem with ⟨q, hq, hq1⟩
          rcases List.mem_cons.mp hq with rfl | hq'
          · exact absurd hq1 hp
          · rw [← hq1]
            exact List.mem_map_of_mem Prod.fst hq'
        simp [pyLookup, hp, ih hk]
  · simp only [hmem, if_false]
    rw [pyLookup_append]
    rw [(pyLookup_eq_none_iff k m).mpr hmem]
    simp [pyLookup]

theorem pyLookup_pyInsert_ne {K V : Type} [DecidableEq K] (m : List (K × V))
    {k k' : K} (v : V) (h : k' ≠ k) :
    pyLookup k' (pyInsert m k v) = pyLookup k' m := by
  unfold pyInsert
  by_cases hmem : k ∈ m.map Prod.fst
  · simp only [hmem, if_true]
    exact pyLookup_map_update_ne v m h
  · simp only [hmem, if_false]
    rw [pyLookup_append]
    simp [pyLookup, Ne.symm h]

theorem keys_map_update {K V : Type} [DecidableEq K] (m : List (K × V))
    (k : K) (v : V) :
    (m.map (fun p => if p.1 = k then (k, v) else p)).map Prod.fst = m.map Prod.fst := by
  induction m with
  | nil => simp
  | cons p rest ih =>
    by_cases hp : p.1 = k
    · simp only [List.map_cons, hp, if_true, ih]
    · simp only [List.map_cons, hp, if_false, ih]

theorem keys_pyInsert_of_mem {K V : Type} [DecidableEq K] (m : List (K × V))
    (k : K) (v : V) (hmem : k ∈ m.map Prod.fst) :
    (pyInsert m k v).map Prod.fst = m.map Prod.fst := by
  unfold pyInsert
  simp only [hmem, if_true]
  exact keys_map_update m k v

theorem keys_pyInsert_of_not_mem {K V : Type} [DecidableEq K] (m : List (K × V))
    (k : K) (v : V) (hmem : k ∉ m.map Prod.fst) :
    (pyInsert m k v).map Prod.fst = m.map Prod.fst ++ [k] := by
  unfold pyInsert
  simp [hmem]

theorem nodupKeys_pyInsert {K V : Type} [DecidableEq K] {m : List (K × V)}
    (hnd : nodupKeys m) (k : K) (v : V) : nodupKeys (pyInsert m k v) := by
  unfold nodupKeys
  by_cases hmem : k ∈ m.map Prod.fst
  · rw [keys_pyInsert_of_mem m k v hmem]
    exact hnd
  · rw [keys_pyInsert_of_not_mem m k v hmem]
    unfold nodupKeys at hnd
    simp [List.nodup_append, hnd, hmem]

theorem mem_keys_pyInsert {K V : Type} [DecidableEq K] (m : List (K × V))
    (k k' : K) (v : V) :
    k' ∈ (pyInsert m k v).map Prod.fst ↔ k' ∈ m.map Prod.fst ∨ k' = k := by
  by_cases hmem : k ∈ m.map Prod.fst
  · rw [keys_pyInsert_of_mem m k v hmem]
    constructor
    · exact Or.inl
    · rintro (h | rfl)
      · exact h
      · exact hmem
  · rw [keys_pyInsert_of_not_mem m k v hmem]
    simp

theorem dictEq_iff_pyLookup_eq {K V : Type} [DecidableEq K] [DecidableEq V]
    {m1 m2 : List (K × V)} (h1 : nodupKeys m1) (h2 : nodupKeys m2) :
    dictEq m1 m2 = true ↔ ∀ k, pyLookup k m1 = pyLookup k m2 := by
  constructor
  · intro h k
    rw [dictEq, Bool.and_eq_true, List.all_eq_true, List.all_eq_true] at h
    obtain ⟨ha, hb⟩ := h
    cases hv : pyLookup k m1 with
    | some v =>
      have hmem : (k, v) ∈ m1 := mem_of_pyLookup_eq_some hv
      have := ha (k, v) hmem
      simp only [decide_eq_true_eq] at this
      exact this.symm
    | none =>
      cases hw : pyLookup k m2 with
      | some w =>
        have hmem : (k, w) ∈ m2 := mem_of_pyLookup_eq_some hw
        have := hb (k, w) hmem
        simp only [decide_eq_true_eq] at this
        rw [hv] at this
        exact absurd this (by simp)
      | none => rfl
  · intro h
    rw [dictEq, Bool.and_eq_true, List.all_eq_true, List.all_eq_true]
    constructor
    · intro p hp
      have : pyLookup p.1 m1 = some p.2 := pyLookup_eq_some_of_mem h1 hp
      simp [← h p.1, this]
    · intro p hp
      have : pyLookup p.1 m2 = some p.2 := pyLookup_eq_some_of_mem h2 hp
      simp [h p.1, this]

theorem dictEq_refl {K V : Type} [DecidableEq K] [DecidableEq V]
    {m : List (K × V)} (hnd : nodupKeys m) : dictEq m m = true :=
  (dictEq_iff_pyLookup_eq hnd hnd).mpr (fun _ => rfl)

/-! ### Properties of `build_manifest` -/

theorem nodupKeys_foldl_pyInsert (files : List FileDesc)
    (m : List (Option String × Option String)) (hm : nodupKeys m) :
    nodupKeys (files.foldl (fun acc f => pyInsert acc f.id f.etag) m) := by
  induction files generalizing m with
  | nil => simpa using hm
  | cons f rest ih =>
    simp only [List.foldl_cons]
    exact ih _ (nodupKeys_pyInsert hm f.id f.etag)

theorem nodupKeys_build_manifest_map (files : List FileDesc) :
    nodupKeys (build_manifest files).map :=
  nodupKeys_foldl_pyInsert files [] (by simp [nodupKeys])

theorem pyLookup_foldl_pyInsert (files : List FileDesc) (k : Option String)
    (m : List (Option String × Option String)) :
    pyLookup k (files.foldl (fun acc f => pyInsert acc f.id f.etag) m)
      = (((files.filter (fun f => decide (f.id = k))).getLast?).map FileDesc.etag).or
          (pyLookup k m) := by
  induction files generalizing m with
  | nil => simp
  | cons f rest ih =>
    simp only [List.foldl_cons]
    rw [ih]
    by_cases hf : f.id = k
    · have hl : pyLookup k (pyInsert m f.id f.etag) = some f.etag := by
        rw [hf]
        exact pyLookup_pyInsert_self m k f.etag
      rw [hl, List.filter_cons]
      simp only [hf, decide_True, if_true]
      cases hfr : rest.filter (fun f => decide (f.id = k)) with
      | nil => simp
      | cons q qs =>
        rw [List.getLast?_cons_cons]
        cases hqx : (q :: qs).getLast? with
        | none => exact absurd (List.getLast?_eq_none_iff.mp hqx) (by simp)
        | some x => simp
    · have hl : pyLookup k (pyInsert m f.id f.etag) = pyLookup k m :=
        pyLookup_pyInsert_ne m f.etag (fun h => hf h.symm)
      rw [hl, List.filter_cons]
      simp [hf]

theorem mem_keys_foldl_pyInsert (files : List FileDesc) (k : Option String)
    (m : List (Option String × Option String)) :
    k ∈ (files.foldl (fun acc f => pyInsert acc f.id f.etag) m).map Prod.fst
      ↔ k ∈ m.map Prod.fst ∨ k ∈ files.map FileDesc.id := by
  induction files generalizing m with
  | nil => simp
  | cons f rest ih =>
    simp only [List.foldl_cons, List.map_cons, List.mem_cons]
    rw [ih, mem_keys_pyInsert]
    tauto

theorem keys_build_manifest_subset (files : List FileDesc) :
    ((build_manifest files).map).map Prod.fst ⊆ files.map FileDesc.id := by
  intro k hk
  have := (mem_keys_foldl_pyInsert files k []).mp hk
  simpa using this

theorem build_manifest_map_length_le (files : List FileDesc) :
    (build_manifest files).map.length ≤ files.length := by
  have hnd : ((build_manifest files).map.map Prod.fst).Nodup :=
    nodupKeys_build_manifest_map files
  have hsub := keys_build_manifest_subset files
  have hsp := List.subperm_of_subset hnd hsub
  have := hsp.length_le
  simpa using this

theorem build_manifest_map_length_lt_of_dup (files : List FileDesc)
    (hdup : ¬ (files.map FileDesc.id).Nodup) :
    (build_manifest files).map.length < files.length := by
  have hle := build_manifest_map_length_le files
  rcases Nat.lt_or_ge (build_manifest files).map.length files.length with h | h
  · exact h
  · exfalso
    have heq : (build_manifest files).map.length = files.length := Nat.le_antisymm hle h
    have hnd : ((build_manifest files).map.map Prod.fst).Nodup :=
      nodupKeys_build_manifest_map files
    have hsub := keys_build_manifest_subset files
    have hsp := List.subperm_of_subset hnd hsub
    have hlen : (files.map FileDesc.id).length ≤ ((build_manifest files).map.map Prod.fst).length := by
      simp [heq]
    have hperm : ((build_manifest files).map.map Prod.fst).Perm (files.map FileDesc.id) :=
      hsp.perm_of_length_le hlen
    exact hdup (hperm.nodup_iff.mp hnd)

theorem foldl_pyInsert_eq_append (files : List FileDesc) :
    ∀ m : List (Option String × Option String),
    (∀ f ∈ files, f.id ∉ m.map Prod.fst) → (files.map FileDesc.id).Nodup →
    files.foldl (fun acc f => pyInsert acc f.id f.etag) m
      = m ++ files.map (fun f => (f.id, f.etag)) := by
  induction files with
  | nil => intro m _ _; simp
  | cons f rest ih =>
    intro m hdisj hnd
    simp only [List.foldl_cons]
    have hmem : f.id ∉ m.map Prod.fst := hdisj f (List.mem_cons_self f rest)
    have hins : pyInsert m f.id f.etag = m ++ [(f.id, f.etag)] := by
      unfold pyInsert
      simp [hmem]
    rw [List.map_cons] at hnd
    have hndc := List.nodup_cons.mp hnd
    have hdisj' : ∀ g ∈ rest, g.id ∉ (m ++ [(f.id, f.etag)]).map Prod.fst := by
      intro g hg
      have h1 : g.id ∉ m.map Prod.fst := hdisj g (List.mem_cons_of_mem f hg)
      have h2 : g.id ≠ f.id := by
        intro hEq
        exact hndc.1 (hEq ▸ List.mem_map_of_mem FileDesc.id hg)
      simp [h1, h2]
    rw [hins, ih (m ++ [(f.id, f.etag)]) hdisj' hndc.2]
    simp

theorem build_manifest_map_of_nodup (files : List FileDesc)
    (hnd : (files.map FileDesc.id).Nodup) :
    (build_manifest files).map = files.map (fun f => (f.id, f.etag)) := by
  have := foldl_pyInsert_eq_append files [] (by simp) hnd
  simpa [build_manifest] using this

theorem pyLookup_eq_of_perm {K V : Type} [DecidableEq K] {m1 m2 : List (K × V)}
    (hperm : m1.Perm m2) (hnd : nodupKeys m1) (k : K) :
    pyLookup k m1 = pyLookup k m2 := by
  have hnd2 : nodupKeys m2 := by
    unfold nodupKeys at hnd ⊢
    exact ((hperm.map Prod.fst).nodup_iff).mp hnd
  cases hv : pyLookup k m1 with
  | some v =>
    have hmem : (k, v) ∈ m2 := hperm.mem_iff.mp (mem_of_pyLookup_eq_some hv)
    exact (pyLookup_eq_some_of_mem hnd2 hmem).symm
  | none =>
    have hk : k ∉ m1.map Prod.fst := (pyLookup_eq_none_iff k m1).mp hv
    have hk2 : k ∉ m2.map Prod.fst := fun h => hk (((hperm.map Prod.fst).mem_iff).mpr h)
    exact ((pyLookup_eq_none_iff k m2).mpr hk2).symm

theorem foldl_pyInsert_congr_proj (files1 : List FileDesc) :
    ∀ files2 : List FileDesc,
    files1.map (fun f => (f.id, f.etag)) = files2.map (fun f => (f.id, f.etag)) →
    ∀ m, files1.foldl (fun acc f => pyInsert acc f.id f.etag) m
        = files2.foldl (fun acc f => pyInsert acc f.id f.etag) m := by
  induction files1 with
  | nil =>
    intro files2 h m
    cases files2 with
    | nil => rfl
    | cons g gs => simp at h
  | cons f fs ih =>
    intro files2 h m
    cases files2 with
    | nil => simp at h
    | cons g gs =>
      simp only [List.map_cons, List.cons.injEq] at h
      obtain ⟨hpair, hrest⟩ := h
      simp only [List.foldl_cons]
      have hid : f.id = g.id := congrArg Prod.fst hpair
      have hetag : f.etag = g.etag := congrArg Prod.snd hpair
      rw [hid, hetag, ih gs hrest]

theorem map_pair_eq_of_forall2 {files1 files2 : List FileDesc}
    (h : List.Forall₂ (fun f g => f.id = g.id ∧ f.etag = g.etag) files1 files2) :
    files1.map (fun f => (f.id, f.etag)) = files2.map (fun f => (f.id, f.etag)) := by
  induction h with
  | nil => rfl
  | cons hp _ ih => simp [Prod.ext_iff, hp.1, hp.2, ih]

/-! ### Claim theorems: manifest builder and change detector -/

/-- C2: `manifests_equal` returns `true` exactly when the two manifests'
id-to-etag maps agree as mappings (every key bound to the same value in both,
hence the same key set and the same values) and their counts are equal. -/
theorem c2_manifests_equal_iff (a b : Manifest)
    (ha : nodupKeys a.map) (hb : nodupKeys b.map) :
    manifests_equal a b = true ↔
      ((∀ k, pyLookup k a.map = pyLookup k b.map) ∧ a.count = b.count) := by
  unfold manifests_equal
  rw [Bool.and_eq_true, dictEq_iff_pyLookup_eq ha hb]
  simp

/-- Witness for C2 at two concrete manifests with the same mapping presented
in a different entry order. -/
theorem c2_manifests_equal_iff_witness :
    manifests_equal
        { files := [], map := [(some "A", some "v1"), (some "B", some "v2")], count := 2 }
        { files := [], map := [(some "B", some "v2"), (some "A", some "v1")], count := 2 }
        = true ↔
      ((∀ k, pyLookup k [(some "A", some "v1"), (some "B", some "v2")]
          = pyLookup k [(some "B", some "v2"), (some "A", some "v1")]) ∧ (2 : Nat) = 2) :=
  c2_manifests_equal_iff
    { files := [], map := [(some "A", some "v1"), (some "B", some "v2")], count := 2 }
    { files := [], map := [(some "B", some "v2"), (some "A", some "v1")], count := 2 }
    (by decide) (by decide)

/-- C3: `build_manifest` sets `count` to the length of the input sequence (not
the size of the map); the map binds each id to the etag of the last occurrence
of that id in the sequence; and a duplicated id therefore leaves the map
strictly smaller than `count`. -/
theorem c3_build_manifest_count_and_last_wins (files : List FileDesc) :
    (build_manifest files).count = files.length ∧
    (∀ k, pyLookup k (build_manifest files).map
        = ((files.filter (fun f => decide (f.id = k))).getLast?).map FileDesc.etag) ∧
    (¬ (files.map FileDesc.id).Nodup →
      (build_manifest files).map.length < (build_manifest files).count) := by
  refine ⟨rfl, ?_, ?_⟩
  · intro k
    have h := pyLookup_foldl_pyInsert files k []
    simpa [build_manifest, pyLookup] using h
  · intro hdup
    exact build_manifest_map_length_lt_of_dup files hdup

/-- Witness for C3 on a list that carries the id `A` twice: the last etag wins
and the map is strictly smaller than the count. -/
theorem c3_build_manifest_witness :
    (build_manifest [sampleFileA1, sampleFileA2]).map.length
      < (build_manifest [sampleFileA1, sampleFileA2]).count ∧
    pyLookup (some "A") (build_manifest [sampleFileA1, sampleFileA2]).map
      = some (some "v2") :=
  ⟨(c3_build_manifest_count_and_last_wins [sampleFileA1, sampleFileA2]).2.2 (by decide),
   by
    rw [(c3_build_manifest_count_and_last_wins [sampleFileA1, sampleFileA2]).2.1 (some "A")]
    decide⟩

/-- C8: two descriptor lists with unique ids that are permutations of each
other build manifests that `manifests_equal` judges equal. -/
theorem c8_build_manifest_perm_invariant (files1 files2 : List FileDesc)
    (hperm : files1.Perm files2) (hnd : (files1.map FileDesc.id).Nodup) :
    manifests_equal (build_manifest files1) (build_manifest files2) = true := by
  have hnd2 : (files2.map FileDesc.id).Nodup := ((hperm.map FileDesc.id).nodup_iff).mp hnd
  have h1 := build_manifest_map_of_nodup files1 hnd
  have h2 := build_manifest_map_of_nodup files2 hnd2
  have hk1 : nodupKeys (build_manifest files1).map := nodupKeys_build_manifest_map files1
  have hk2 : nodupKeys (build_manifest files2).map := nodupKeys_build_manifest_map files2
  unfold manifests_equal
  rw [Bool.and_eq_true]
  constructor
  · rw [dictEq_iff_pyLookup_eq hk1 hk2]
    intro k
    refine pyLookup_eq_of_perm ?_ hk1 k
    rw [h1, h2]
    exact hperm.map _
  · simp [build_manifest, hperm.length_eq]

/-- Witness for C8 on the two orderings of the pair `A@v1`, `B@v1`. -/
theorem c8_build_manifest_perm_invariant_witness :
    manifests_equal (build_manifest [sampleFileA1, sampleFileB])
      (build_manifest [sampleFileB, sampleFileA1]) = true :=
  c8_build_manifest_perm_invariant [sampleFileA1, sampleFileB]
    [sampleFileB, sampleFileA1] (by decide) (by decide)

/-- C10: change detection sees only ids and etags: two descriptor lists that
agree pointwise on id and etag (but may differ in name, size or modification
date) build manifests that `manifests_equal` judges equal, so metadata-only
changes never register as a remote change. -/
theorem c10_manifest_insensitive_to_metadata (files1 files2 : List FileDesc)
    (h : List.Forall₂ (fun f g => f.id = g.id ∧ f.etag = g.etag) files1 files2) :
    manifests_equal (build_manifest files1) (build_manifest files2) = true := by
  have hproj := map_pair_eq_of_forall2 h
  have hmap : (build_manifest files1).map = (build_manifest files2).map := by
    simpa [build_manifest] using foldl_pyInsert_congr_proj files1 files2 hproj []
  unfold manifests_equal
  rw [Bool.and_eq_true]
  constructor
  · rw [hmap]
    exact dictEq_refl (nodupKeys_build_manifest_map files2)
  · simp [build_manifest, h.length_eq]

/-- Witness for C10: renaming `B` and changing its size and date leaves the
manifests equal. -/
theorem c10_manifest_insensitive_to_metadata_witness :
    manifests_equal (build_manifest [sampleFileA1, sampleFileB])
      (build_manifest [sampleFileA1, sampleFileBRenamed]) = true :=
  c10_manifest_insensitive_to_metadata [sampleFileA1, sampleFileB]
    [sampleFileA1, sampleFileBRenamed]
    (List.Forall₂.cons ⟨rfl, rfl⟩ (List.Forall₂.cons ⟨rfl, rfl⟩ List.Forall₂.nil))


/-! ### Claim theorems: remote traversal and content fetcher -/

set_option maxRecDepth 4000 in
/-- C7: a leaf file item yields exactly one descriptor, whose etag is the
item's true `eTag` when a non-empty one is present, otherwise the first 32
characters of the ephemeral download token, and the empty string when that is
absent as well. -/
theorem c7_descriptor_etag_fallback (i n e d : Option String) (sz : Option Int)
    (lm : Option String) :
    (collect_files_recursively_from_item (DriveItem.file i n e d sz lm)).length = 1 ∧
    ∀ desc ∈ collect_files_recursively_from_item (DriveItem.file i n e d sz lm),
      (∀ s, e = some s → s ≠ "" → desc.etag = some s) ∧
      ((e = none ∨ e = some "") → desc.etag = some ((d.getD "").take 32)) ∧
      ((e = none ∨ e = some "") → d = none → desc.etag = some "") := by
  have hcol : collect_files_recursively_from_item (DriveItem.file i n e d sz lm)
      = [{ id := i, name := n,
           etag := some (match e with
             | some s => if s = "" then (d.getD "").take 32 else s
             | none => (d.getD "").take 32),
           size := sz, lastModifiedDateTime := lm, downloadUrl := d }] := by
    simp only [collect_files_recursively_from_item]
  rw [hcol]
  refine ⟨rfl, ?_⟩
  intro desc hdesc
  rw [List.mem_singleton] at hdesc
  subst hdesc
  refine ⟨?_, ?_, ?_⟩
  · intro s hs hne
    subst hs
    simp [hne]
  · rintro (rfl | rfl) <;> simp
  · rintro (rfl | rfl) rfl <;> simp [Option.getD] <;> decide

/-- Witness for C7: a true eTag is used as is; with neither an eTag nor a
download token the etag is empty. -/
theorem c7_descriptor_etag_fallback_witness :
    (∀ desc ∈ collect_files_recursively_from_item
        (DriveItem.file (some "A") (some "a") (some "E1") (some "tok") (some 1) none),
      desc.etag = some "E1") ∧
    (∀ desc ∈ collect_files_recursively_from_item
        (DriveItem.file (some "A") (some "a") none none (some 1) none),
      desc.etag = some "") := by
  constructor
  · intro desc hdesc
    exact ((c7_descriptor_etag_fallback (some "A") (some "a") (some "E1") (some "tok")
      (some 1) none).2 desc hdesc).1 "E1" rfl (by decide)
  · intro desc hdesc
    exact ((c7_descriptor_etag_fallback (some "A") (some "a") none none
      (some 1) none).2 desc hdesc).2.2 (Or.inl rfl) rfl

theorem download_ok_of_all_ok (R : Remote) (t : FileDesc → String) :
    ∀ files : List FileDesc,
    (∀ f ∈ files, ∀ url, f.downloadUrl = some url → url ≠ "" →
      ∃ b, R.httpGet url = Except.ok b ∧ R.get_raw_text b (f.name.getD "file") = t f) →
    download_and_extract_text R files
      = Except.ok (concat_texts ((files.filter has_download_url).map
          (fun f => t f ++ "\n\n"))) := by
  intro files
  induction files with
  | nil => intro _; simp [download_and_extract_text, concat_texts]
  | cons f rest ih =>
    intro hok
    have hok' := fun g hg => hok g (List.mem_cons_of_mem f hg)
    cases hdl : f.downloadUrl with
    | none =>
      simp [download_and_extract_text, hdl, has_download_url, List.filter_cons, ih hok']
    | some url =>
      by_cases hurl : url = ""
      · subst hurl
        simp [download_and_extract_text, hdl, has_download_url, List.filter_cons, ih hok']
      · obtain ⟨b, hb, ht⟩ := hok f (List.mem_cons_self f rest) url hdl hurl
        simp [download_and_extract_text, hdl, hurl, hb, ih hok', has_download_url,
          List.filter_cons, concat_texts, ht]

theorem download_error_of_exists_error (R : Remote) :
    ∀ files : List FileDesc,
    (∃ f ∈ files, ∃ url, f.downloadUrl = some url ∧ url ≠ "" ∧
      R.httpGet url = Except.error ()) →
    download_and_extract_text R files = Except.error () := by
  intro files
  induction files with
  | nil =>
    rintro ⟨f, hf, _⟩
    simp at hf
  | cons f rest ih =>
    rintro ⟨g, hg, url, hgu, hune, herr⟩
    rcases List.mem_cons.mp hg with rfl | hgrest
    · simp [download_and_extract_text, hgu, hune, herr]
    · cases hdl : f.downloadUrl with
      | none =>
        have hred : download_and_extract_text R (f :: rest)
            = download_and_extract_text R rest := by
          simp [download_and_extract_text, hdl]
        rw [hred]
        exact ih ⟨g, hgrest, url, hgu, hune, herr⟩
      | some u =>
        by_cases hu : u = ""
        · have hred : download_and_extract_text R (f :: rest)
              = download_and_extract_text R rest := by
            simp [download_and_extract_text, hdl, hu]
          rw [hred]
          exact ih ⟨g, hgrest, url, hgu, hune, herr⟩
        · cases hget : R.httpGet u with
          | error e =>
            cases e
            simp [download_and_extract_text, hdl, hu, hget]
          | ok b =>
            have hrest : download_and_extract_text R rest = Except.error () :=
              ih ⟨g, hgrest, url, hgu, hune, herr⟩
            simp [download_and_extract_text, hdl, hu, hget, hrest]

/-- C9: `download_and_extract_text` skips every file without a resolvable
download reference, returns the extracted texts of the remaining files
concatenated in traversal order with a blank-line separator, and aborts the
whole operation with the transport error when any retrieval fails. -/
theorem c9_download_and_extract (R : Remote) (files : List FileDesc) :
    (∀ t : FileDesc → String,
      (∀ f ∈ files, ∀ url, f.downloadUrl = some url → url ≠ "" →
        ∃ b, R.httpGet url = Except.ok b ∧ R.get_raw_text b (f.name.getD "file") = t f) →
      download_and_extract_text R files
        = Except.ok (concat_texts ((files.filter has_download_url).map
            (fun f => t f ++ "\n\n")))) ∧
    ((∃ f ∈ files, ∃ url, f.downloadUrl = some url ∧ url ≠ "" ∧
        R.httpGet url = Except.error ()) →
      download_and_extract_text R files = Except.error ()) :=
  ⟨fun t hok => download_ok_of_all_ok R t files hok,
   fun hex => download_error_of_exists_error R files hex⟩

/-- Witness for C9: with one url-less file and one downloadable file the
result is the single extracted text followed by a blank line; with a failing
transport the whole call errors. -/
theorem c9_download_and_extract_witness :
    download_and_extract_text sampleRemoteOk [sampleFileA1, sampleFileUrl]
      = Except.ok (concat_texts (([sampleFileA1, sampleFileUrl].filter
          has_download_url).map (fun f => (fun _ => "T") f ++ "\n\n"))) ∧
    download_and_extract_text sampleRemoteHttpFail [sampleFileA1, sampleFileUrl]
      = Except.error () := by
  constructor
  · refine (c9_download_and_extract sampleRemoteOk [sampleFileA1, sampleFileUrl]).1
      (fun _ => "T") ?_
    intro f hf url hu hne
    rcases List.mem_cons.mp hf with rfl | hf2
    · exact absurd hu (by simp [sampleFileA1])
    · rcases List.mem_cons.mp hf2 with rfl | hf3
      · exact ⟨0, rfl, rfl⟩
      · simp at hf3
  · refine (c9_download_and_extract sampleRemoteHttpFail [sampleFileA1, sampleFileUrl]).2 ?_
    exact ⟨sampleFileUrl, by simp, "tok", rfl, by decide, rfl⟩

/-! ### Claim theorems: sync orchestrator -/

theorem maybe_autosync_state_cases (R : Remote) (s : AppState) :
    (maybe_autosync_current_cache R s).1 = s ∨
    (maybe_autosync_current_cache R s).2.2 = SyncResult.completed ∨
    (maybe_autosync_current_cache R s).2.2 = SyncResult.failed Event.writeConfig := by
  unfold maybe_autosync_current_cache
  dsimp only
  repeat' split
  all_goals first
  | exact Or.inl rfl
  | exact Or.inr (Or.inl rfl)
  | exact Or.inr (Or.inr rfl)

/-- C1: when the freshly built manifest differs from the stored one and every
step succeeds, the sync performs exactly one rebuild, persists the new index
exactly once and strictly before the single config write, and afterwards the
stored config's manifest is the manifest freshly built from the new remote
listing. -/
theorem c1_changed_sync_rebuild_protocol (R : Remote) (s : AppState)
    (cache link : String) (item : DriveItem) (files : List FileDesc)
    (text : String) (qa : Nat)
    (h1 : s.session.currentCache = some cache)
    (h3 : (read_cache_config s cache).type = some "sharepoint")
    (h4 : (read_cache_config s cache).autosync = true)
    (h5 : (read_cache_config s cache).spLink = some link)
    (h6 : link ≠ "")
    (h7 : R.token = Except.ok ())
    (h8 : R.itemMeta link = Except.ok item)
    (h9 : R.listing item = Except.ok files)
    (h10 : manifest_unchanged (read_cache_config s cache) (build_manifest files) = false)
    (h11 : download_and_extract_text R files = Except.ok text)
    (h12 : R.buildEngine text = Except.ok qa)
    (h13 : R.persistResult = Except.ok ())
    (h14 : R.writeCfg = Except.ok ()) :
    ((maybe_autosync_current_cache R s).2.1).count Event.rebuild = 1 ∧
    ((maybe_autosync_current_cache R s).2.1).count Event.persistIndex = 1 ∧
    ((maybe_autosync_current_cache R s).2.1).count Event.writeConfig = 1 ∧
    (∃ i j, i < j ∧
      ((maybe_autosync_current_cache R s).2.1).get? i = some Event.persistIndex ∧
      ((maybe_autosync_current_cache R s).2.1).get? j = some Event.writeConfig) ∧
    (maybe_autosync_current_cache R s).1.store cache
      = some { read_cache_config s cache with
                 manifest := some (build_manifest files) } := by
  have hrun : maybe_autosync_current_cache R s
      = ({ session := { qa := some qa, currentCache := some cache },
           store := fun n => if n = cache then
               some { read_cache_config s cache with
                        manifest := some (build_manifest files) }
             else s.store n },
         [Event.auth, Event.resolveMeta, Event.listing, Event.download,
          Event.rebuild, Event.persistIndex, Event.writeConfig],
         SyncResult.completed) := by
    unfold maybe_autosync_current_cache rebuild_vectorstore_and_save
    rw [h1]
    simp [h3, h4, h5, h6, h7, h8, h9, h10, h11, h12, h13, h14]
  rw [hrun]
  refine ⟨rfl, rfl, rfl, ⟨5, 6, by decide, rfl, rfl⟩, ?_⟩
  simp

/-- Witness for C1 on the sample cache whose remote listing moved file `A`
from `v1` to `v2`. -/
theorem c1_changed_sync_rebuild_protocol_witness :
    ((maybe_autosync_current_cache sampleRemoteOk sampleState).2.1).count Event.rebuild = 1 ∧
    (maybe_autosync_current_cache sampleRemoteOk sampleState).1.store "policies"
      = some { sampleConfig with
                 manifest := some (build_manifest [sampleFileA2, sampleFileB]) } := by
  have h := c1_changed_sync_rebuild_protocol sampleRemoteOk sampleState "policies"
    "https-share-link" DriveItem.other [sampleFileA2, sampleFileB] "" 7
    rfl rfl rfl rfl (by decide) rfl rfl rfl (by decide) rfl rfl rfl rfl
  exact ⟨h.1, h.2.2.2.2⟩

/-- C4: when the freshly built manifest equals the stored one the sync
performs no rebuild, no index persistence and no config write, and returns
with the application state untouched. -/
theorem c4_unchanged_sync_no_side_effects (R : Remote) (s : AppState)
    (cache link : String) (item : DriveItem) (files : List FileDesc)
    (h1 : s.session.currentCache = some cache)
    (h3 : (read_cache_config s cache).type = some "sharepoint")
    (h4 : (read_cache_config s cache).autosync = true)
    (h5 : (read_cache_config s cache).spLink = some link)
    (h6 : link ≠ "")
    (h7 : R.token = Except.ok ())
    (h8 : R.itemMeta link = Except.ok item)
    (h9 : R.listing item = Except.ok files)
    (h10 : manifest_unchanged (read_cache_config s cache) (build_manifest files) = true) :
    (maybe_autosync_current_cache R s).1 = s ∧
    ((maybe_autosync_current_cache R s).2.1).count Event.rebuild = 0 ∧
    ((maybe_autosync_current_cache R s).2.1).count Event.persistIndex = 0 ∧
    ((maybe_autosync_current_cache R s).2.1).count Event.writeConfig = 0 ∧
    (maybe_autosync_current_cache R s).2.2 = SyncResult.unchanged := by
  have hrun : maybe_autosync_current_cache R s
      = (s, [Event.auth, Event.resolveMeta, Event.listing], SyncResult.unchanged) := by
    unfold maybe_autosync_current_cache
    rw [h1]
    simp [h3, h4, h5, h6, h7, h8, h9, h10]
  rw [hrun]
  exact ⟨rfl, rfl, rfl, rfl, rfl⟩

/-- Witness for C4 on the sample cache whose remote listing still matches the
stored manifest. -/
theorem c4_unchanged_sync_no_side_effects_witness :
    (maybe_autosync_current_cache sampleRemoteUnchanged sampleState).1 = sampleState ∧
    ((maybe_autosync_current_cache sampleRemoteUnchanged sampleState).2.1).count
        Event.rebuild = 0 := by
  have h := c4_unchanged_sync_no_side_effects sampleRemoteUnchanged sampleState
    "policies" "https-share-link" DriveItem.other [sampleFileA1, sampleFileB]
    rfl rfl rfl rfl (by decide) rfl rfl rfl (by decide)
  exact ⟨h.1, h.2.1⟩

/-- C5: a sync attempt on which an exception is raised while authenticating,
resolving the link, listing, downloading/extracting, rebuilding, or persisting
the index is caught by the orchestrator and leaves the whole application
state — in particular the in-memory QA engine and the stored config —
unchanged, so queries answer exactly as before the attempt. -/
theorem c5_failed_sync_preserves_state (R : Remote) (s : AppState) (step : Event)
    (hf : (maybe_autosync_current_cache R s).2.2 = SyncResult.failed step)
    (hw : step ≠ Event.writeConfig) :
    (maybe_autosync_current_cache R s).1 = s ∧
    (maybe_autosync_current_cache R s).1.session.qa = s.session.qa := by
  rcases maybe_autosync_state_cases R s with h | h | h
  · exact ⟨h, by rw [h]⟩
  · rw [hf] at h
    simp at h
  · rw [hf] at h
    injection h with h'
    exact absurd h' hw

/-- Witness for C5: a failed authentication leaves the sample state intact. -/
theorem c5_failed_sync_preserves_state_witness :
    (maybe_autosync_current_cache sampleRemoteAuthFail sampleState).1 = sampleState ∧
    (maybe_autosync_current_cache sampleRemoteAuthFail sampleState).1.session.qa
      = sampleState.session.qa :=
  c5_failed_sync_preserves_state sampleRemoteAuthFail sampleState Event.auth
    rfl (by decide)

theorem autosync_preconditions_false_cases (s : AppState)
    (h : autosync_preconditions s = false) :
    s.session.currentCache = none ∨
    ∃ cache, s.session.currentCache = some cache ∧
      ((read_cache_config s cache).type ≠ some "sharepoint" ∨
       (read_cache_config s cache).autosync = false ∨
       (read_cache_config s cache).spLink = none ∨
       (read_cache_config s cache).spLink = some "") := by
  unfold autosync_preconditions at h
  cases hcc : s.session.currentCache with
  | none => exact Or.inl rfl
  | some cache =>
    rw [hcc] at h
    refine Or.inr ⟨cache, rfl, ?_⟩
    by_cases h3 : (read_cache_config s cache).type = some "sharepoint"
    · by_cases h4 : (read_cache_config s cache).autosync = true
      · cases h5 : (read_cache_config s cache).spLink with
        | none => exact Or.inr (Or.inr (Or.inl rfl))
        | some l =>
          by_cases h6 : l = ""
          · exact Or.inr (Or.inr (Or.inr (by rw [h6])))
          · exfalso
            simp [h3, h4, h5, h6] at h
      · exact Or.inr (Or.inl (by simpa using h4))
    · exact Or.inl h3

/-- C6: when the active cache's config is not a SharePoint source, or autosync
is off, or no sharing link is present (or the session has no active cache),
activation performs no remote operation, no effect at all, and no state
change. -/
theorem c6_preconditions_gate_sync (R : Remote) (s : AppState)
    (h : autosync_preconditions s = false) :
    maybe_autosync_current_cache R s = (s, [], SyncResult.notAttempted) := by
  unfold maybe_autosync_current_cache
  rcases autosync_preconditions_false_cases s h with hcc | ⟨cache, hcc, hcase⟩
  · rw [hcc]
  · rw [hcc]
    rcases hcase with h3 | h4 | h5 | h5
    · simp [h3]
    · by_cases h3 : (read_cache_config s cache).type = some "sharepoint"
      · simp [h3, h4]
      · simp [h3]
    · by_cases h3 : (read_cache_config s cache).type = some "sharepoint"
      · by_cases h4 : (read_cache_config s cache).autosync = true
        · simp [h3, h4, h5]
        · rw [Bool.not_eq_true] at h4
          simp [h3, h4]
      · simp [h3]
    · by_cases h3 : (read_cache_config s cache).type = some "sharepoint"
      · by_cases h4 : (read_cache_config s cache).autosync = true
        · simp [h3, h4, h5]
        · rw [Bool.not_eq_true] at h4
          simp [h3, h4]
      · simp [h3]

/-- Witness for C6: with autosync switched off, activation does nothing. -/
theorem c6_preconditions_gate_sync_witness :
    maybe_autosync_current_cache sampleRemoteOk sampleStateNoSync
      = (sampleStateNoSync, [], SyncResult.notAttempted) :=
  c6_preconditions_gate_sync sampleRemoteOk sampleStateNoSync (by decide)
